import Mathlib

/-!
Verification of the FWQPBO data-harmonization pipeline (FWQPBO.py).

The definitions below are a shallow embedding of the Python source:
pure fragments become Lean functions, exceptions become `Except`,
DICOM pixel values and timing data become rationals or reals, and
complex image data becomes `ℂ`.  Machine floats are idealized as exact
arithmetic; `sys.float_info.epsilon` is embedded as the exact rational
2 ^ (-52).
-/

namespace FWQPBO

/-! ## Image type decoding (FWQPBO.py lines 184-187)

`typeTag2type` scans the letters M, P, R, I in that fixed order and
returns the first one contained in the (multi-valued) Image Type tag. -/

def typeTag2type (tagValue : List String) : Option String :=
  (["M", "P", "R", "I"]).find? (fun t => decide (t ∈ tagValue))

/-! ## Frame type classification (FWQPBO.py lines 269-284)

`getType` counts the per-frame type letters and classifies the dataset
as RI, MP or MRI; any other combination raises an exception. -/

def getType (typeTags : List Char) : Except String String :=
  if typeTags.count 'M' + typeTags.count 'P' = 0 ∧
      typeTags.count 'R' + typeTags.count 'I' > 0 ∧
      typeTags.count 'R' = typeTags.count 'I' then
    Except.ok "RI"
  else if typeTags.count 'M' + typeTags.count 'P' > 0 ∧
      typeTags.count 'R' + typeTags.count 'I' = 0 ∧
      typeTags.count 'M' = typeTags.count 'P' then
    Except.ok "MP"
  else if typeTags.count 'P' = 0 ∧
      typeTags.count 'M' + typeTags.count 'R' + typeTags.count 'I' > 0 ∧
      typeTags.count 'M' = typeTags.count 'R' ∧
      typeTags.count 'R' = typeTags.count 'I' then
    Except.ok "MRI"
  else
    Except.error "Unknown combination of image types"

/-! ## Echo timing (FWQPBO.py lines 313-317 and 407-410)

Both ingestion paths compute `dt = np.mean(np.diff(echoTimes))` and test
whether the inter-echo spacing deviates from the mean by more than 5%.
The DICOM path prints a warning and continues; the MATLAB path raises. -/

def npDiff (ts : List ℚ) : List ℚ :=
  (ts.zip ts.tail).map (fun p => p.2 - p.1)

def npMean (l : List ℚ) : ℚ :=
  l.sum / (l.length : ℚ)

def spacingJitter : List ℚ → Bool
  | [] => false
  | d :: rest =>
    decide ((rest.foldl max d) / npMean (d :: rest) > 21 / 20) ||
      decide ((rest.foldl min d) / npMean (d :: rest) < 19 / 20)

def jitterExceeds (ts : List ℚ) : Bool :=
  spacingJitter (npDiff ts)

def updateDataParamsDICOMtiming (echoTimes : List ℚ) : Except String (ℚ × ℚ × Bool) :=
  match echoTimes with
  | [] => Except.error "IndexError"
  | t :: rest =>
    Except.ok (t, npMean (npDiff (t :: rest)), jitterExceeds (t :: rest))

def updateDataParamsMATLABtiming (echoTimes : List ℚ) : Except String (ℚ × ℚ) :=
  match echoTimes with
  | [] => Except.error "IndexError"
  | t :: rest =>
    if jitterExceeds (t :: rest) then
      Except.error "Warning: echo inter-spacing varies more than 5%"
    else
      Except.ok (t, npMean (npDiff (t :: rest)))

/-! ## Algorithm parameter derivation (FWQPBO.py lines 494-521) -/

/-- Python `int()` on a rational: truncation toward zero. -/
def truncQ (q : ℚ) : ℤ :=
  if 0 ≤ q then ⌊q⌋ else -⌊-q⌋

/-- Python 3 `round()` on a rational: round half to even. -/
def pyRound (q : ℚ) : ℤ :=
  if q - ⌊q⌋ < 1 / 2 then ⌊q⌋
  else if 1 / 2 < q - ⌊q⌋ then ⌊q⌋ + 1
  else if ⌊q⌋ % 2 = 0 then ⌊q⌋
  else ⌊q⌋ + 1

structure AParCfg where
  nr2 : Option ℤ
  r2max : Option ℚ
  r2cand : Option (List ℚ)
  fibsearch : Option String
  mu : Option ℚ
  nb0 : Option ℤ
  nicmiter : Option ℤ
  graphcut : Option String
  multiscale : Option String
  use3d : Option String
deriving DecidableEq

structure APar where
  nR2 : ℤ
  R2max : ℚ
  R2cand : List ℚ
  FibSearch : Bool
  mu : ℚ
  nB0 : ℤ
  nICMiter : ℤ
  graphcut : Bool
  graphcutLevel : ℤ
  multiScale : Bool
  use3D : Bool
  R2step : ℚ
  iR2cand : List ℤ
  nR2cand : ℕ
  maxICMupdate : ℤ
deriving DecidableEq

/-- Embedding of `updateAlgoParams`.  The only failure mode is Python's
`ZeroDivisionError` when `R2step` is zero (`nR2 > 1` with `R2max = 0`) and
a candidate must be discretized. -/
def updateAlgoParams (cfg : AParCfg) : Except String APar :=
  let nR2 := cfg.nr2.getD 1
  let R2max := cfg.r2max.getD 100
  let R2cand := cfg.r2cand.getD [0]
  let FibSearch := cfg.fibsearch == some "True"
  let mu := cfg.mu.getD 1
  let nB0 := cfg.nb0.getD 100
  let nICMiter := cfg.nicmiter.getD 0
  let graphcut := cfg.graphcut == some "True"
  let graphcutLevel : ℤ := if graphcut then 0 else 100
  let multiScale := cfg.multiscale == some "True"
  let use3D := cfg.use3d == some "True"
  let R2step : ℚ := if 1 < nR2 then R2max / ((nR2 : ℚ) - 1) else 1
  if R2step = 0 ∧ R2cand ≠ [] then
    Except.error "ZeroDivisionError: float division by zero"
  else
    let iR2cand := (R2cand.map (fun R2 => min (nR2 - 1) (truncQ (R2 / R2step)))).dedup
    Except.ok
      ⟨nR2, R2max, R2cand, FibSearch, mu, nB0, nICMiter, graphcut, graphcutLevel,
        multiScale, use3D, R2step, iR2cand, iR2cand.length, pyRound ((nB0 : ℚ) / 10)⟩

/-! ## Model parameter derivation (FWQPBO.py lines 424-491)

`getFACalphas` returns the fixed triglyceride coefficient table; the
number of rows is 2 plus the number of unset parameters among CL, UD,
P2U.  Combinations that are not produced by any call site would raise a
`TypeError` in Python (arithmetic on `None`) and are mapped to `[]`. -/

def getFACalphas (CL P2U UD : Option ℚ) : List (List ℚ) :=
  match CL, P2U, UD with
  | some cl, some p2u, some ud =>
    [1 :: List.replicate 10 0,
     0 :: [9, 6 * (cl - 4) + ud * (2 * p2u - 8), 6, 4 * ud, 6, 2 * ud * p2u, 2, 2, 1,
       ud * (2 * p2u + 2)]]
  | some cl, some p2u, none =>
    [1 :: List.replicate 10 0,
     0 :: [9, 6 * (cl - 4), 6, 0, 6, 0, 2, 2, 1, 0],
     0 :: [0, 2 * p2u - 8, 0, 4, 0, 2 * p2u, 0, 0, 0, 2 * p2u + 2]]
  | some cl, none, none =>
    [1 :: List.replicate 10 0,
     0 :: [9, 6 * (cl - 4), 6, 0, 6, 0, 2, 2, 1, 0],
     0 :: [0, -8, 0, 4, 0, 0, 0, 0, 0, 2],
     0 :: [0, 2, 0, 0, 0, 2, 0, 0, 0, 2]]
  | none, none, none =>
    [1 :: List.replicate 10 0,
     0 :: [9, 0, 6, 0, 6, 0, 2, 2, 1, 0],
     0 :: [0, 2, 0, 0, 0, 0, 0, 0, 0, 0],
     0 :: [0, 0, 0, 4, 0, 0, 0, 0, 0, 2],
     0 :: [0, 0, 0, 0, 0, 2, 0, 0, 0, 2]]
  | _, _, _ => []

/-- The `nFAC = 0` alpha matrix of `updateModelParams` (lines 475-483):
a zero matrix with `alpha[0][0] = 1`; row 1 is either the configured
relative amplitudes written at positions `p+1`, or the default loop
`for p in range(P): alpha[1][p] = 1/len(fatCS)` which also writes the
water position `p = 0`. -/
def buildAlphaNFAC0 (P : ℕ) (fatCS : List ℚ) (relamps : Option (List ℚ)) :
    List (List ℚ) :=
  let row0 := (List.replicate P (0 : ℚ)).set 0 1
  let row1 :=
    match relamps with
    | some amps => amps.enum.foldl (fun r pa => r.set (pa.1 + 1) pa.2) (List.replicate P 0)
    | none => (List.range P).foldl (fun r p => r.set p (1 / (fatCS.length : ℚ)))
        (List.replicate P 0)
  [row0, row1]

structure MParCfg where
  watcs : Option ℚ
  fatcs : Option (List ℚ)
  nfac : Option ℤ
  cl : Option ℚ
  p2u : Option ℚ
  relamps : Option (List ℚ)
deriving DecidableEq

structure MPar where
  CS : List ℚ
  P : ℕ
  nFAC : ℤ
  M : ℤ
  alpha : List (List ℚ)
deriving DecidableEq

/-- Attribute-store snapshot reported with an exception: the value of the
config-level key `p2u` and of the derived attribute `P2U` at raise time. -/
structure PState where
  p2u : Option ℚ
  P2U : Option ℚ
deriving DecidableEq

/-- Embedding of `updateModelParams`.  An exception is modelled as
`Except.error` carrying the message together with the `p2u`/`P2U`
attribute store at raise time.  On the `nFAC = 1` path with no `p2u`
key, line 474 stores the default 0.2 under the lowercase key `p2u`,
so line 485 reads the never-created attribute `P2U` and raises an
`AttributeError`; no alpha matrix is produced. -/
def updateModelParams (cfg : MParCfg) : Except (String × PState) MPar :=
  let watCS : List ℚ := [cfg.watcs.getD (47 / 10)]
  let fatCS : List ℚ := cfg.fatcs.getD [13 / 10]
  let CS := watCS ++ fatCS
  let P := CS.length
  let nFAC : ℤ := cfg.nfac.getD 0
  if nFAC > 0 ∧ P ≠ 11 then
    Except.error ("FAC excpects exactly one water and ten triglyceride resonances",
      ⟨cfg.p2u, none⟩)
  else
    let M : ℤ := 2 + nFAC
    let CL : ℚ := cfg.cl.getD (174 / 10)
    let p2uStore : Option ℚ := if nFAC = 1 ∧ cfg.p2u = none then some (1 / 5) else cfg.p2u
    if nFAC = 0 then
      Except.ok ⟨CS, P, nFAC, M, buildAlphaNFAC0 P fatCS cfg.relamps⟩
    else if nFAC = 1 then
      match cfg.p2u with
      | some p2uv => Except.ok ⟨CS, P, nFAC, M, getFACalphas (some CL) (some p2uv) none⟩
      | none =>
        Except.error ("AttributeError: AttrDict object has no attribute P2U",
          ⟨p2uStore, none⟩)
    else if nFAC = 2 then
      Except.ok ⟨CS, P, nFAC, M, getFACalphas (some CL) none none⟩
    else if nFAC = 3 then
      Except.ok ⟨CS, P, nFAC, M, getFACalphas none none none⟩
    else
      Except.error ("Unknown number of FAC parameters", ⟨cfg.p2u, none⟩)

def mParCfgDefault : MParCfg :=
  ⟨none, none, none, none, none, none⟩

def mParCfgFAC1 : MParCfg :=
  ⟨none, some (List.replicate 10 (13 / 10)), some 1, none, none, none⟩

/-! ## Complex image assembly, MP path (FWQPBO.py lines 332-347 and 371)

For one (echo, slice) pair of an MP dataset, `magnPixels` and
`phasePixels` are the flattened pixel arrays of the magnitude frame `i`
and phase frame `i+1`, and `phaseRescaleIntercept` is the Rescale
Intercept attribute read from the phase frame; its absolute value is
used.  Line 371 multiplies the whole assembled image by the configured
rescale factor. -/

noncomputable def updateDataParamsMPassembly (magnPixels phasePixels : List ℝ)
    (phaseRescaleIntercept : ℝ) : List ℂ :=
  (magnPixels.zip phasePixels).map fun mp =>
    (mp.1 : ℂ) *
      Complex.exp (((mp.2 / |phaseRescaleIntercept| * 2 * Real.pi : ℝ) : ℂ) * Complex.I)

noncomputable def applyReScale (img : List ℂ) (reScale : ℝ) : List ℂ :=
  img.map (· * (reScale : ℂ))

/-! ## Fat fraction (FWQPBO.py lines 599-603 and 629-634) -/

/-- `sys.float_info.epsilon`, the exact value 2 ^ (-52). -/
noncomputable def eps : ℝ := 1 / 2 ^ 52

/-- `getFat`: per voxel `v`, the sum over fat components `m ≥ 1` of
`sum(alpha[m,1:])` times the m-th block of the solver output `X`. -/
noncomputable def getFat (X : ℕ → ℂ) (nVxl : ℕ) (alpha : ℕ → ℕ → ℝ) (M P : ℕ) (v : ℕ) : ℂ :=
  ∑ m ∈ Finset.Ico 1 M, ((∑ p ∈ Finset.Ico 1 P, alpha m p : ℝ) : ℂ) * X (m * nVxl + v)

/-- The fat fraction of `processDataset`: `wat` is block 0 of `X`, and
`ff = abs(fat) / (abs(wat) + abs(fat) + eps)`. -/
noncomputable def ffVoxel (X : ℕ → ℂ) (nVxl : ℕ) (alpha : ℕ → ℕ → ℝ) (M P : ℕ) (v : ℕ) : ℝ :=
  Complex.abs (getFat X nVxl alpha M P v) /
    (Complex.abs (X (0 * nVxl + v)) + Complex.abs (getFat X nVxl alpha M P v) + eps)

/-- Solver output with zero water and fat 5 at the single voxel. -/
noncomputable def watZeroX : ℕ → ℂ := fun i => if i = 0 then 0 else 5

/-- Solver output with water 5 and zero fat at the single voxel. -/
noncomputable def fatZeroX : ℕ → ℂ := fun i => if i = 0 then 5 else 0

/-- A 2 × 2 alpha matrix whose single fat resonance has amplitude 1. -/
noncomputable def alphaUnit : ℕ → ℕ → ℝ := fun m p => if m = 1 ∧ p = 1 then 1 else 0

/-! ## Frames and canonical sorting (FWQPBO.py lines 208, 287-300)

A `FrameRec` holds the per-frame attribute tuple built by
`updateDataParamsDICOM`/`isValidDataset`: source file, optional frame
index, then the eight required attributes in order (Image Type letter,
Echo Time, Slice Location, Imaging Frequency, Columns, Rows, Pixel
Spacing, Slice Thickness).  Lines 298-300 apply three successive stable
sorts (Python `list.sort` is stable): by type tag, then by echo time,
then by slice location; stability is modelled with insertion sort. -/

structure FrameRec where
  file : ℕ
  frame : Option ℕ
  typeTag : Char
  echoTime : ℚ
  sliceLoc : ℚ
  imagingFreq : ℚ
  cols : ℕ
  rows : ℕ
  pixelSpacing : ℚ × ℚ
  sliceThickness : ℚ
deriving DecidableEq

section StableSort

variable {α : Type} {κ : Type} [LinearOrder κ]

@[reducible] def keyLe (k : α → κ) : α → α → Prop :=
  fun a b => k a ≤ k b

/-- One stable sort on a key, as Python `list.sort(key=...)`. -/
def sortByKey (k : α → κ) (l : List α) : List α :=
  List.insertionSort (keyLe k) l

/-- Lexicographic refinement: strictly smaller key, or equal key and the
previous-stage order. -/
def lexLe (k : α → κ) (s : α → α → Prop) : α → α → Prop :=
  fun a b => k a < k b ∨ (k a = k b ∧ s a b)

end StableSort

/-- Lines 298-300 of `updateDataParamsDICOM`: sort on type tag, then echo
time, then slice location. -/
def sortFrameList (fl : List FrameRec) : List FrameRec :=
  sortByKey (fun f => f.sliceLoc)
    (sortByKey (fun f => f.echoTime) (sortByKey (fun f => f.typeTag) fl))

/-- The canonical (slice, echo, type) triple of a frame. -/
def canonKey (f : FrameRec) : ℚ × ℚ × Char :=
  (f.sliceLoc, f.echoTime, f.typeTag)

/-- Lexicographic order on (slice, echo, type) triples. -/
def tripleLe (a b : ℚ × ℚ × Char) : Prop :=
  a.1 < b.1 ∨ (a.1 = b.1 ∧ (a.2.1 < b.2.1 ∨ (a.2.1 = b.2.1 ∧ a.2.2 ≤ b.2.2)))

/-! ## Dataset validation (FWQPBO.py lines 211-247) -/

inductive DFile where
  | single (fr : FrameRec)
  | multi (frs : List FrameRec)
deriving DecidableEq

def isMulti : DFile → Bool
  | .single _ => false
  | .multi _ => true

/-- The frame-list building loop of `isValidDataset` (lines 213-221):
single-frame files contribute one record, a multi-frame file contributes
all its frames but raises when the job holds more than one file. -/
def buildFrames (raiseFlag : Bool) : List DFile → Except String (List FrameRec)
  | [] => Except.ok []
  | DFile.single fr :: rest => (buildFrames raiseFlag rest).map (fun l => fr :: l)
  | DFile.multi frs :: rest =>
    if raiseFlag then
      Except.error "Support for multiple multi-frame DICOM files not implemented yet!"
    else
      (buildFrames raiseFlag rest).map (fun l => frs ++ l)

def buildFrameList (files : List DFile) : Except String (List FrameRec) :=
  buildFrames (decide (1 < files.length)) files

/-- The check cascade of `isValidDataset` (lines 222-247): `some msg`
models returning `False` after printing the diagnostic, `none` models
returning `True`. -/
def validChecks (fl : List FrameRec) : Option String :=
  match getType (fl.map (fun f => f.typeTag)) with
  | Except.error e => some e
  | Except.ok _ =>
    if (fl.map (fun f => f.echoTime)).dedup.length < 3 then
      some "Error: Less than three echo times in dataset"
    else if 1 < (fl.map (fun f => f.imagingFreq)).dedup.length then
      some "Error: Multiple imaging frequencies in dataset"
    else if 1 < (fl.map (fun f => f.cols)).dedup.length then
      some "Error: Multiple image sizes (y-dir) in dataset"
    else if 1 < (fl.map (fun f => f.rows)).dedup.length then
      some "Error: Multiple image sizes (x-dir) in dataset"
    else if 1 < (fl.map (fun f => f.pixelSpacing.1)).dedup.length then
      some "Error: Multiple voxel sizes (y-dir) in dataset"
    else if 1 < (fl.map (fun f => f.pixelSpacing.2)).dedup.length then
      some "Error: Multiple voxel sizes (x-dir) in dataset"
    else if 1 < (fl.map (fun f => f.sliceThickness)).dedup.length then
      some "Error: Multiple slice thicknesses in dataset"
    else
      none

def isValidDataset (files : List DFile) : Except String (Option String) :=
  (buildFrameList files).map validChecks

/-- All soft checks pass: recognized type combination, at least three
distinct echo times, and uniform frequency, columns, rows, pixel spacing
and slice thickness. -/
def checksPass (fl : List FrameRec) : Prop :=
  (∃ t, getType (fl.map (fun f => f.typeTag)) = Except.ok t)
  ∧ 3 ≤ (fl.map (fun f => f.echoTime)).dedup.length
  ∧ (fl.map (fun f => f.imagingFreq)).dedup.length ≤ 1
  ∧ (fl.map (fun f => f.cols)).dedup.length ≤ 1
  ∧ (fl.map (fun f => f.rows)).dedup.length ≤ 1
  ∧ (fl.map (fun f => f.pixelSpacing.1)).dedup.length ≤ 1
  ∧ (fl.map (fun f => f.pixelSpacing.2)).dedup.length ≤ 1
  ∧ (fl.map (fun f => f.sliceThickness)).dedup.length ≤ 1

/-- The hard-failure condition: a multi-frame file together with any
other file. -/
def raiseCond (files : List DFile) : Prop :=
  1 < files.length ∧ ∃ f ∈ files, isMulti f = true

/-- A frame of an MP dataset with uniform geometry at slice 0. -/
def frMP (file : ℕ) (tp : Char) (te : ℚ) : FrameRec :=
  ⟨file, none, tp, te, 0, 63, 4, 4, (1, 1), 5⟩

def dFiles6 : List DFile :=
  [DFile.single (frMP 0 'M' 1), DFile.single (frMP 1 'P' 1),
   DFile.single (frMP 2 'M' 2), DFile.single (frMP 3 'P' 2),
   DFile.single (frMP 4 'M' 3), DFile.single (frMP 5 'P' 3)]

def fl6 : List FrameRec :=
  [frMP 0 'M' 1, frMP 1 'P' 1, frMP 2 'M' 2, frMP 3 'P' 2, frMP 4 'M' 3, frMP 5 'P' 3]

/-- C1: frame-type classification is total and exclusive: `getType` returns
RI exactly when M+P=0, R+I>0 and R=I; MP exactly when R+I=0, M+P>0 and M=P;
MRI exactly when P=0, M+R+I>0 and M=R=I; it raises on every other count
combination; at most one of the three conditions can hold; and on the
concrete examples, two magnitudes with two phases yield MP while one frame
of each type raises. -/
theorem c1_getType_classification (tags : List Char) :
    (getType tags = Except.ok "RI" ↔
      (tags.count 'M' + tags.count 'P' = 0 ∧ tags.count 'R' + tags.count 'I' > 0 ∧
        tags.count 'R' = tags.count 'I'))
    ∧ (getType tags = Except.ok "MP" ↔
      (tags.count 'M' + tags.count 'P' > 0 ∧ tags.count 'R' + tags.count 'I' = 0 ∧
        tags.count 'M' = tags.count 'P'))
    ∧ (getType tags = Except.ok "MRI" ↔
      (tags.count 'P' = 0 ∧ tags.count 'M' + tags.count 'R' + tags.count 'I' > 0 ∧
        tags.count 'M' = tags.count 'R' ∧ tags.count 'R' = tags.count 'I'))
    ∧ ((∃ e, getType tags = Except.error e) ↔
      ¬ (tags.count 'M' + tags.count 'P' = 0 ∧ tags.count 'R' + tags.count 'I' > 0 ∧
          tags.count 'R' = tags.count 'I')
      ∧ ¬ (tags.count 'M' + tags.count 'P' > 0 ∧ tags.count 'R' + tags.count 'I' = 0 ∧
          tags.count 'M' = tags.count 'P')
      ∧ ¬ (tags.count 'P' = 0 ∧ tags.count 'M' + tags.count 'R' + tags.count 'I' > 0 ∧
          tags.count 'M' = tags.count 'R' ∧ tags.count 'R' = tags.count 'I'))
    ∧ getType ['M', 'M', 'P', 'P'] = Except.ok "MP"
    ∧ (∃ e, getType ['M', 'P', 'R', 'I'] = Except.error e) := by
  refine ⟨?_, ?_, ?_, ?_, by rfl, ⟨"Unknown combination of image types", by rfl⟩⟩
  · unfold getType
    split_ifs with h1 h2 h3
    · exact iff_of_true rfl h1
    · exact iff_of_false (by simp) h1
    · exact iff_of_false (by simp) h1
    · exact iff_of_false (by simp) h1
  · unfold getType
    split_ifs with h1 h2 h3
    · refine iff_of_false (by simp) ?_
      obtain ⟨a1, a2, a3⟩ := h1
      rintro ⟨b1, b2, b3⟩
      omega
    · exact iff_of_true rfl h2
    · exact iff_of_false (by simp) h2
    · exact iff_of_false (by simp) h2
  · unfold getType
    split_ifs with h1 h2 h3
    · refine iff_of_false (by simp) ?_
      obtain ⟨a1, a2, a3⟩ := h1
      rintro ⟨b1, b2, b3, b4⟩
      omega
    · refine iff_of_false (by simp) ?_
      obtain ⟨a1, a2, a3⟩ := h2
      rintro ⟨b1, b2, b3, b4⟩
      omega
    · exact iff_of_true rfl h3
    · exact iff_of_false (by simp) h3
  · unfold getType
    split_ifs with h1 h2 h3
    · refine iff_of_false (by simp) ?_
      rintro ⟨n1, n2, n3⟩
      exact n1 h1
    · refine iff_of_false (by simp) ?_
      rintro ⟨n1, n2, n3⟩
      exact n2 h2
    · refine iff_of_false (by simp) ?_
      rintro ⟨n1, n2, n3⟩
      exact n3 h3
    · exact iff_of_true ⟨"Unknown combination of image types", rfl⟩ ⟨h1, h2, h3⟩

/-- C9: `typeTag2type` returns the first letter among M, P, R, I (checked
in that fixed order) contained in the tag value, `none` when none of the
four is contained, and a tag containing both M and P decodes as M. -/
theorem c9_typeTag2type (tv : List String) :
    (typeTag2type tv = some "M" ↔ "M" ∈ tv)
    ∧ (typeTag2type tv = some "P" ↔ "P" ∈ tv ∧ "M" ∉ tv)
    ∧ (typeTag2type tv = some "R" ↔ "R" ∈ tv ∧ "M" ∉ tv ∧ "P" ∉ tv)
    ∧ (typeTag2type tv = some "I" ↔ "I" ∈ tv ∧ "M" ∉ tv ∧ "P" ∉ tv ∧ "R" ∉ tv)
    ∧ (typeTag2type tv = none ↔ "M" ∉ tv ∧ "P" ∉ tv ∧ "R" ∉ tv ∧ "I" ∉ tv)
    ∧ typeTag2type ["M", "P"] = some "M" := by
  by_cases hM : "M" ∈ tv <;> by_cases hP : "P" ∈ tv <;>
    by_cases hR : "R" ∈ tv <;> by_cases hI : "I" ∈ tv <;>
    simp [typeTag2type, List.find?, hM, hP, hR, hI]

/-- C4 counterexample: the claim says no ingestion path raises on echo
jitter, but for echo times 0, 1, 3 (spacing deviates more than 5% from the
mean) the MATLAB ingestion raises an exception. -/
theorem c4_matlab_jitter_counterexample :
    updateDataParamsMATLABtiming [0, 1, 3] =
      Except.error "Warning: echo inter-spacing varies more than 5%" := by
  have h1 : npDiff [0, 1, 3] = [1, 2] := by
    simp [npDiff]
    norm_num
  have h2 : jitterExceeds [0, 1, 3] = true := by
    rw [jitterExceeds, h1]
    simp [spacingJitter, npMean]
    norm_num
  simp [updateDataParamsMATLABtiming, h2]

/-- C4 amended: echo-spacing jitter beyond 5% is a soft warning only on the
DICOM ingestion path, which records the warning and completes; the MATLAB
ingestion path raises an exception on the same condition. -/
theorem c4_jitter_amended (ts : List ℚ) (h : jitterExceeds ts = true) :
    updateDataParamsDICOMtiming ts = Except.ok (ts.headI, npMean (npDiff ts), true)
    ∧ updateDataParamsMATLABtiming ts =
      Except.error "Warning: echo inter-spacing varies more than 5%" := by
  cases ts with
  | nil => simp [jitterExceeds, npDiff, spacingJitter] at h
  | cons t rest =>
    refine ⟨?_, ?_⟩
    · simp [updateDataParamsDICOMtiming, h]
    · simp [updateDataParamsMATLABtiming, h]

/-- C4 witness: the amended claim instantiated at echo times 0, 1, 3. -/
theorem c4_jitter_amended_witness :
    jitterExceeds [0, 1, 3] = true
    ∧ (updateDataParamsDICOMtiming [0, 1, 3] =
        Except.ok (([0, 1, 3] : List ℚ).headI, npMean (npDiff [0, 1, 3]), true)
      ∧ updateDataParamsMATLABtiming [0, 1, 3] =
        Except.error "Warning: echo inter-spacing varies more than 5%") := by
  have h2 : jitterExceeds [0, 1, 3] = true := by
    have h1 : npDiff [0, 1, 3] = [1, 2] := by
      simp [npDiff]
      norm_num
    rw [jitterExceeds, h1]
    simp [spacingJitter, npMean]
    norm_num
  exact ⟨h2, c4_jitter_amended [0, 1, 3] h2⟩

/-- C7: postconditions of `updateAlgoParams`: `R2step = R2max / (nR2 - 1)`
when `nR2 > 1` and `1.0` otherwise; `iR2cand` holds the discretized R2*
candidate indices with duplicates removed, each at most `nR2 - 1`, and
`nR2cand` is their count; `graphcutLevel` is 0 when graph cut is enabled
and 100 otherwise; `maxICMupdate = round(nB0 / 10)`; and each boolean flag
is true exactly when its configured string is the literal "True". -/
theorem c7_updateAlgoParams_post (cfg : AParCfg) (a : APar)
    (h : updateAlgoParams cfg = Except.ok a) :
    (1 < a.nR2 → a.R2step = a.R2max / ((a.nR2 : ℚ) - 1))
    ∧ (¬ 1 < a.nR2 → a.R2step = 1)
    ∧ (∀ i : ℤ, i ∈ a.iR2cand ↔ ∃ R2 ∈ a.R2cand, i = min (a.nR2 - 1) (truncQ (R2 / a.R2step)))
    ∧ a.iR2cand.Nodup
    ∧ (∀ i ∈ a.iR2cand, i ≤ a.nR2 - 1)
    ∧ a.nR2cand = a.iR2cand.length
    ∧ a.graphcutLevel = (if a.graphcut then 0 else 100)
    ∧ a.maxICMupdate = pyRound ((a.nB0 : ℚ) / 10)
    ∧ (a.FibSearch = true ↔ cfg.fibsearch = some "True")
    ∧ (a.graphcut = true ↔ cfg.graphcut = some "True")
    ∧ (a.multiScale = true ↔ cfg.multiscale = some "True")
    ∧ (a.use3D = true ↔ cfg.use3d = some "True") := by
  simp only [updateAlgoParams] at h
  by_cases hgt : 1 < cfg.nr2.getD 1
  · rw [if_pos hgt] at h
    by_cases hz : cfg.r2max.getD 100 / ((cfg.nr2.getD 1 : ℚ) - 1) = 0 ∧ cfg.r2cand.getD [0] ≠ []
    · rw [if_pos hz] at h
      exact absurd h (by simp)
    · rw [if_neg hz] at h
      rw [Except.ok.injEq] at h
      subst h
      refine ⟨fun _ => rfl, fun hn => absurd hgt hn, ?_, List.nodup_dedup _, ?_, rfl, rfl,
        rfl, beq_iff_eq, beq_iff_eq, beq_iff_eq, beq_iff_eq⟩
      · intro i
        simp only [List.mem_dedup, List.mem_map]
        constructor
        · rintro ⟨R2, hm, hv⟩
          exact ⟨R2, hm, hv.symm⟩
        · rintro ⟨R2, hm, hv⟩
          exact ⟨R2, hm, hv.symm⟩
      · intro i hi
        simp only [List.mem_dedup, List.mem_map] at hi
        obtain ⟨R2, hm, hv⟩ := hi
        rw [← hv]
        exact min_le_left _ _
  · rw [if_neg hgt] at h
    by_cases hz : (1 : ℚ) = 0 ∧ cfg.r2cand.getD [0] ≠ []
    · rw [if_pos hz] at h
      exact absurd h (by simp)
    · rw [if_neg hz] at h
      rw [Except.ok.injEq] at h
      subst h
      refine ⟨fun hn => absurd hn hgt, fun _ => rfl, ?_, List.nodup_dedup _, ?_, rfl, rfl,
        rfl, beq_iff_eq, beq_iff_eq, beq_iff_eq, beq_iff_eq⟩
      · intro i
        simp only [List.mem_dedup, List.mem_map]
        constructor
        · rintro ⟨R2, hm, hv⟩
          exact ⟨R2, hm, hv.symm⟩
        · rintro ⟨R2, hm, hv⟩
          exact ⟨R2, hm, hv.symm⟩
      · intro i hi
        simp only [List.mem_dedup, List.mem_map] at hi
        obtain ⟨R2, hm, hv⟩ := hi
        rw [← hv]
        exact min_le_left _ _

def aParCfgDefault : AParCfg :=
  ⟨none, none, none, none, none, none, none, none, none, none⟩

def aParDefault : APar :=
  ⟨1, 100, [0], false, 1, 100, 0, false, 100, false, false, 1, [0], 1, 10⟩

/-- C7 witness: the default configuration derives successfully and all
postconditions hold for it. -/
theorem c7_updateAlgoParams_post_witness :
    updateAlgoParams aParCfgDefault = Except.ok aParDefault
    ∧ ((1 < aParDefault.nR2 →
        aParDefault.R2step = aParDefault.R2max / ((aParDefault.nR2 : ℚ) - 1))
      ∧ (¬ 1 < aParDefault.nR2 → aParDefault.R2step = 1)
      ∧ (∀ i : ℤ, i ∈ aParDefault.iR2cand ↔
          ∃ R2 ∈ aParDefault.R2cand,
            i = min (aParDefault.nR2 - 1) (truncQ (R2 / aParDefault.R2step)))
      ∧ aParDefault.iR2cand.Nodup
      ∧ (∀ i ∈ aParDefault.iR2cand, i ≤ aParDefault.nR2 - 1)
      ∧ aParDefault.nR2cand = aParDefault.iR2cand.length
      ∧ aParDefault.graphcutLevel = (if aParDefault.graphcut then 0 else 100)
      ∧ aParDefault.maxICMupdate = pyRound ((aParDefault.nB0 : ℚ) / 10)
      ∧ (aParDefault.FibSearch = true ↔ aParCfgDefault.fibsearch = some "True")
      ∧ (aParDefault.graphcut = true ↔ aParCfgDefault.graphcut = some "True")
      ∧ (aParDefault.multiScale = true ↔ aParCfgDefault.multiscale = some "True")
      ∧ (aParDefault.use3D = true ↔ aParCfgDefault.use3d = some "True")) := by
  have h : updateAlgoParams aParCfgDefault = Except.ok aParDefault := by
    simp only [updateAlgoParams, aParCfgDefault, aParDefault]
    norm_num [truncQ, pyRound]
  exact ⟨h, c7_updateAlgoParams_post aParCfgDefault aParDefault h⟩

/-- C5 (evaluation at the failing input): at the default model
configuration (`nFAC = 0`, default `fatCS = [1.3]`, no relative
amplitudes), row 0 of alpha is the pure-water indicator `[1, 0]`, but the
default-amplitude loop writes `1/len(fatCS)` at every position of row 1
including the water position 0, giving `alpha[1] = [1, 1]` instead of the
claimed `[0, 1]`. -/
theorem c5_default_alpha_eval :
    updateModelParams mParCfgDefault =
      Except.ok ⟨[47 / 10, 13 / 10], 2, 0, 2, [[1, 0], [1, 1]]⟩ := by
  have hrange : List.range 2 = [0, 1] := rfl
  simp [updateModelParams, mParCfgDefault, buildAlphaNFAC0, hrange]

/-- C10: for a model configuration with `nfac = 1` and no `p2u` key,
`updateModelParams` never completes; and when the resonance count is the
required eleven (ten configured fat resonances), it fails precisely with
an attribute-lookup error on `P2U`, the default 0.2 having been stored
under the lowercase key `p2u` while the attribute `P2U` was never
created, so no alpha matrix is produced. -/
theorem c10_p2u_attribute_error (cfg : MParCfg) (h1 : cfg.nfac = some 1)
    (h2 : cfg.p2u = none) :
    (∃ e, updateModelParams cfg = Except.error e)
    ∧ ((cfg.fatcs.getD [13 / 10]).length = 10 →
      updateModelParams cfg =
        Except.error ("AttributeError: AttrDict object has no attribute P2U",
          ⟨some (1 / 5), none⟩)) := by
  have hlen : ([cfg.watcs.getD (47 / 10)] ++ cfg.fatcs.getD [13 / 10]).length
      = 1 + (cfg.fatcs.getD [13 / 10]).length := by
    simp
    omega
  constructor
  · by_cases hP : (cfg.fatcs.getD [13 / 10]).length = 10
    · refine ⟨("AttributeError: AttrDict object has no attribute P2U",
        ⟨some (1 / 5), none⟩), ?_⟩
      have h11 : ([cfg.watcs.getD (47 / 10)] ++ cfg.fatcs.getD [13 / 10]).length = 11 := by
        rw [hlen, hP]
      simp [updateModelParams, h1, h2, h11]
      omega
    · refine ⟨("FAC excpects exactly one water and ten triglyceride resonances",
        ⟨none, none⟩), ?_⟩
      have hne : ([cfg.watcs.getD (47 / 10)] ++ cfg.fatcs.getD [13 / 10]).length ≠ 11 := by
        rw [hlen]
        omega
      simp [updateModelParams, h1, h2, hne]
      omega
  · intro h3
    have h11 : ([cfg.watcs.getD (47 / 10)] ++ cfg.fatcs.getD [13 / 10]).length = 11 := by
      rw [hlen, h3]
    simp [updateModelParams, h1, h2, h11]
    omega

/-- C10 witness: a configuration with `nfac = 1`, ten fat resonances and
no `p2u` key reaches the `P2U` attribute error. -/
theorem c10_p2u_attribute_error_witness :
    mParCfgFAC1.nfac = some 1 ∧ mParCfgFAC1.p2u = none
    ∧ ((∃ e, updateModelParams mParCfgFAC1 = Except.error e)
      ∧ ((mParCfgFAC1.fatcs.getD [13 / 10]).length = 10 →
        updateModelParams mParCfgFAC1 =
          Except.error ("AttributeError: AttrDict object has no attribute P2U",
            ⟨some (1 / 5), none⟩))) :=
  ⟨rfl, rfl, c10_p2u_attribute_error mParCfgFAC1 rfl rfl⟩

/-- C3: the assembled MP voxel equals
`magnitude * exp(i * phase / rescaleIntercept * 2 * pi)` with the
absolute value of the phase frame's Rescale Intercept attribute, the
whole image then multiplied by the configured rescale factor; in
particular magnitude 100, phase 512, rescale intercept 2048 and rescale
factor 1 yield exactly `100 * exp(i * pi / 2) = 100 * i`. -/
theorem c3_mp_assembly (magn phase : List ℝ) (ri r : ℝ) :
    applyReScale (updateDataParamsMPassembly magn phase ri) r =
      (magn.zip phase).map (fun mp =>
        ((mp.1 : ℂ) *
          Complex.exp (Complex.I * ((mp.2 / |ri| * (2 * Real.pi) : ℝ) : ℂ))) * (r : ℂ))
    ∧ applyReScale (updateDataParamsMPassembly [100] [512] 2048) 1 =
      [(100 : ℂ) * Complex.I] := by
  constructor
  · unfold applyReScale updateDataParamsMPassembly
    rw [List.map_map]
    congr 1
    funext mp
    have harg : (((mp.2 / |ri| * 2 * Real.pi : ℝ)) : ℂ) * Complex.I
        = Complex.I * (((mp.2 / |ri| * (2 * Real.pi) : ℝ)) : ℂ) := by
      push_cast
      ring
    simp only [Function.comp_apply]
    rw [harg]
  · have habs : |(2048 : ℝ)| = 2048 := abs_of_pos (by norm_num)
    have hexp : Complex.exp (((Real.pi / 2 : ℝ) : ℂ) * Complex.I) = Complex.I := by
      rw [Complex.exp_mul_I, ← Complex.ofReal_cos, ← Complex.ofReal_sin,
        Real.cos_pi_div_two, Real.sin_pi_div_two]
      simp
    have hexp2 : Complex.exp ((512 : ℂ) / 2048 * 2 * (Real.pi : ℂ) * Complex.I)
        = Complex.I := by
      rw [show (512 : ℂ) / 2048 * 2 * (Real.pi : ℂ) * Complex.I
          = ((Real.pi / 2 : ℝ) : ℂ) * Complex.I by
        push_cast
        ring]
      exact hexp
    simp [applyReScale, updateDataParamsMPassembly, habs, hexp2]

/-- C8: the fat fraction equals `abs(fat) / (abs(wat) + abs(fat) + eps)`
with `wat` the 0-block of `X` and `fat` the alpha-weighted sum of the fat
blocks; it lies in `[0, 1)` at every voxel; for wat 0 and fat 5 it is
within machine epsilon of 1; for wat 5 and fat 0 it is exactly 0. -/
theorem c8_fat_fraction (X : ℕ → ℂ) (nVxl : ℕ) (alpha : ℕ → ℕ → ℝ) (M P v : ℕ) :
    (ffVoxel X nVxl alpha M P v =
      Complex.abs (getFat X nVxl alpha M P v) /
        (Complex.abs (X v) + Complex.abs (getFat X nVxl alpha M P v) + eps))
    ∧ 0 ≤ ffVoxel X nVxl alpha M P v
    ∧ ffVoxel X nVxl alpha M P v < 1
    ∧ |ffVoxel watZeroX 1 alphaUnit 2 2 0 - 1| < eps
    ∧ ffVoxel fatZeroX 1 alphaUnit 2 2 0 = 0 := by
  have he : (0 : ℝ) < eps := by norm_num [eps]
  have hW := Complex.abs.nonneg (X (0 * nVxl + v))
  have hA := Complex.abs.nonneg (getFat X nVxl alpha M P v)
  have hden : 0 < Complex.abs (X (0 * nVxl + v))
      + Complex.abs (getFat X nVxl alpha M P v) + eps := by
    linarith
  have hI : Finset.Ico 1 2 = ({1} : Finset ℕ) := rfl
  refine ⟨?_, ?_, ?_, ?_, ?_⟩
  · unfold ffVoxel
    norm_num
  · exact div_nonneg hA (le_of_lt hden)
  · exact (div_lt_one hden).mpr (by linarith)
  · have hfat5 : getFat watZeroX 1 alphaUnit 2 2 0 = 5 := by
      simp [getFat, hI, alphaUnit, watZeroX]
      decide
    have hwat0 : watZeroX (0 * 1 + 0) = 0 := rfl
    unfold ffVoxel
    rw [hfat5, hwat0]
    simp only [map_zero, Complex.abs_ofNat, zero_add]
    have h5 : (0 : ℝ) < 5 + eps := by linarith
    have key : (1 : ℝ) - 5 / (5 + eps) = eps / (5 + eps) := by
      field_simp
    rw [abs_sub_comm, key, abs_of_pos (div_pos he h5), div_lt_iff₀ h5]
    nlinarith [he]
  · have hfat0 : getFat fatZeroX 1 alphaUnit 2 2 0 = 0 := by
      simp [getFat, hI, alphaUnit, fatZeroX]
    unfold ffVoxel
    rw [hfat0]
    simp

section StableSortLemmas

variable {α : Type} {κ : Type} [LinearOrder κ]

theorem pairwise_orderedInsert_lex (k : α → κ) (s : α → α → Prop) (a : α) (l : List α)
    (hl : l.Pairwise (lexLe k s)) (ha : ∀ b ∈ l, s a b) :
    (List.orderedInsert (keyLe k) a l).Pairwise (lexLe k s) := by
  induction l with
  | nil =>
    simp [List.orderedInsert]
  | cons y ys ih =>
    rw [List.orderedInsert]
    by_cases hay : keyLe k a y
    · rw [if_pos hay]
      refine List.Pairwise.cons ?_ hl
      intro b hb
      have hs : s a b := ha b hb
      have hab : k a ≤ k b := by
        rcases List.mem_cons.mp hb with rfl | hb2
        · exact hay
        · have := List.rel_of_pairwise_cons hl hb2
          rcases this with hlt | ⟨heq, _⟩
          · exact le_trans hay (le_of_lt hlt)
          · exact le_trans hay (le_of_eq heq)
      rcases lt_or_eq_of_le hab with hlt | heq
      · exact Or.inl hlt
      · exact Or.inr ⟨heq, hs⟩
    · rw [if_neg hay]
      have hya : k y < k a := lt_of_not_le hay
      refine List.Pairwise.cons ?_ ?_
      · intro b hb
        rcases (List.mem_orderedInsert _).mp hb with rfl | hb2
        · exact Or.inl hya
        · exact List.rel_of_pairwise_cons hl hb2
      · exact ih hl.of_cons (fun b hb => ha b (List.mem_cons_of_mem _ hb))

/-- Stability of one sorting pass: sorting a list ordered by `s` on the
key `k` yields a list ordered by the lexicographic refinement. -/
theorem pairwise_sortByKey (k : α → κ) (s : α → α → Prop) (l : List α)
    (hl : l.Pairwise s) : (sortByKey k l).Pairwise (lexLe k s) := by
  induction l with
  | nil =>
    simp [sortByKey]
  | cons a t ih =>
    rw [sortByKey, List.insertionSort]
    refine pairwise_orderedInsert_lex k s a _ (ih hl.of_cons) ?_
    intro b hb
    exact List.rel_of_pairwise_cons hl ((List.mem_insertionSort _).mp hb)

theorem perm_sortByKey (k : α → κ) (l : List α) : (sortByKey k l).Perm l :=
  List.perm_insertionSort _ l

end StableSortLemmas

theorem tripleLe_antisymm (a b : ℚ × ℚ × Char) (h1 : tripleLe a b) (h2 : tripleLe b a) :
    a = b := by
  rcases a with ⟨xa, ya, za⟩
  rcases b with ⟨xb, yb, zb⟩
  simp only [tripleLe] at h1 h2
  simp only [Prod.mk.injEq]
  rcases h1 with h1 | ⟨rfl, h1⟩
  · rcases h2 with h2 | ⟨e, _⟩
    · exact absurd h2 (lt_asymm h1)
    · subst e
      exact absurd h1 (lt_irrefl _)
  · rcases h2 with h2 | ⟨_, h2⟩
    · exact absurd h2 (lt_irrefl _)
    · refine ⟨rfl, ?_⟩
      rcases h1 with h1 | ⟨rfl, h1⟩
      · rcases h2 with h2 | ⟨e, _⟩
        · exact absurd h2 (lt_asymm h1)
        · subst e
          exact absurd h1 (lt_irrefl _)
      · rcases h2 with h2 | ⟨_, h2⟩
        · exact absurd h2 (lt_irrefl _)
        · exact ⟨rfl, le_antisymm h1 h2⟩

theorem pairwise_trivial (l : List FrameRec) : l.Pairwise (fun _ _ => True) := by
  induction l with
  | nil => exact List.Pairwise.nil
  | cons a t ih => exact List.Pairwise.cons (fun _ _ => trivial) ih

/-- The three successive stable sorts leave the frame list ordered
lexicographically by (slice location, echo time, type tag). -/
theorem sortFrameList_pairwise (l : List FrameRec) :
    ((sortFrameList l).map canonKey).Pairwise tripleLe := by
  have h1 := pairwise_sortByKey (fun f => f.typeTag) (fun _ _ => True) l (pairwise_trivial l)
  have h2 := pairwise_sortByKey (fun f => f.echoTime) _ _ h1
  have h3 := pairwise_sortByKey (fun f => f.sliceLoc) _ _ h2
  refine List.Pairwise.map canonKey ?_ h3
  intro a b hab
  rcases hab with hlt | ⟨heq, hab⟩
  · exact Or.inl hlt
  · refine Or.inr ⟨heq, ?_⟩
    rcases hab with hlt | ⟨heq2, hab⟩
    · exact Or.inl hlt
    · refine Or.inr ⟨heq2, ?_⟩
      rcases hab with hlt | ⟨heq3, _⟩
      · exact le_of_lt hlt
      · exact le_of_eq heq3

/-- C2: the three successive stable sorts of `updateDataParamsDICOM`
(type tag, then echo time, then slice location) produce a frame list
ordered primarily by slice location, secondarily by echo time, tertiarily
by type tag; and the canonical (slice, echo, type) sequence is the same
for any two permutations of the same frame set. -/
theorem c2_canonical_frame_ordering (fs gs : List FrameRec) (h : fs.Perm gs) :
    ((sortFrameList fs).map canonKey).Pairwise tripleLe
    ∧ (sortFrameList fs).map canonKey = (sortFrameList gs).map canonKey := by
  refine ⟨sortFrameList_pairwise fs, ?_⟩
  haveI : IsAntisymm (ℚ × ℚ × Char) tripleLe := ⟨tripleLe_antisymm⟩
  have hperm : ∀ l : List FrameRec, (sortFrameList l).Perm l := by
    intro l
    exact (perm_sortByKey _ _).trans ((perm_sortByKey _ _).trans (perm_sortByKey _ _))
  refine List.eq_of_perm_of_sorted ?_ (sortFrameList_pairwise fs) (sortFrameList_pairwise gs)
  exact ((hperm fs).trans (h.trans (hperm gs).symm)).map canonKey

/-- C2 witness: two frames given in either input order sort to the same
canonical (slice, echo, type) sequence. -/
theorem c2_canonical_frame_ordering_witness :
    ([frMP 0 'M' 1, frMP 1 'P' 1].Perm [frMP 1 'P' 1, frMP 0 'M' 1])
    ∧ (((sortFrameList [frMP 0 'M' 1, frMP 1 'P' 1]).map canonKey).Pairwise tripleLe
      ∧ (sortFrameList [frMP 0 'M' 1, frMP 1 'P' 1]).map canonKey
        = (sortFrameList [frMP 1 'P' 1, frMP 0 'M' 1]).map canonKey) :=
  ⟨List.Perm.swap (frMP 1 'P' 1) (frMP 0 'M' 1) [],
    c2_canonical_frame_ordering [frMP 0 'M' 1, frMP 1 'P' 1] [frMP 1 'P' 1, frMP 0 'M' 1]
      (List.Perm.swap (frMP 1 'P' 1) (frMP 0 'M' 1) [])⟩

theorem exceptMap_error_iff {α β γ : Type} (f : α → β) (x : Except γ α) (e : γ) :
    x.map f = Except.error e ↔ x = Except.error e := by
  cases x <;> simp [Except.map]

theorem buildFrames_error_iff (b : Bool) (fs : List DFile) :
    (∃ e, buildFrames b fs = Except.error e) ↔ (b = true ∧ ∃ f ∈ fs, isMulti f = true) := by
  induction fs with
  | nil => simp [buildFrames]
  | cons f rest ih =>
    cases f with
    | single fr =>
      simp only [buildFrames]
      rw [exists_congr (fun e => exceptMap_error_iff _ _ e)]
      rw [ih]
      constructor
      · rintro ⟨hb, g, hg, hm⟩
        exact ⟨hb, g, List.mem_cons_of_mem _ hg, hm⟩
      · rintro ⟨hb, g, hg, hm⟩
        rcases List.mem_cons.mp hg with rfl | hg2
        · simp [isMulti] at hm
        · exact ⟨hb, g, hg2, hm⟩
    | multi frs =>
      cases b with
      | false =>
        simp only [buildFrames, Bool.false_eq_true, if_false]
        rw [exists_congr (fun e => exceptMap_error_iff _ _ e)]
        rw [ih]
        simp
      | true =>
        simp only [buildFrames, if_true]
        refine iff_of_true ⟨_, rfl⟩ ⟨by simp, DFile.multi frs, List.mem_cons_self _ _, rfl⟩

theorem buildFrames_ok_total (b : Bool) (fs : List DFile)
    (h : ¬ (b = true ∧ ∃ f ∈ fs, isMulti f = true)) :
    ∃ l, buildFrames b fs = Except.ok l := by
  cases hb : buildFrames b fs with
  | ok l => exact ⟨l, rfl⟩
  | error e => exact absurd ((buildFrames_error_iff b fs).mp ⟨e, hb⟩) h

theorem validChecks_none_iff (fl : List FrameRec) :
    validChecks fl = none ↔ checksPass fl := by
  unfold validChecks checksPass
  cases hg : getType (fl.map (fun f => f.typeTag)) with
  | error e => simp [hg]
  | ok t =>
    split_ifs with h1 h2 h3 h4 h5 h6 h7 <;> simp [hg] <;> omega

/-- C6: `isValidDataset` raises exactly when a multi-frame file appears
together with any other file; otherwise the frame list is built and the
validator returns: `True` (modelled `ok none`) exactly when the type
combination is recognized, at least three distinct echo times exist, and
imaging frequency, columns, rows, pixel spacing and slice thickness are
uniform; and `False` with a diagnostic (`ok (some msg)`) whenever one of
these soft checks fails. -/
theorem c6_isValidDataset_policy (files : List DFile) :
    ((∃ e, isValidDataset files = Except.error e) ↔ raiseCond files)
    ∧ (¬ raiseCond files → ∃ fl, buildFrameList files = Except.ok fl)
    ∧ (∀ fl, buildFrameList files = Except.ok fl →
        ((isValidDataset files = Except.ok none ↔ checksPass fl)
          ∧ (¬ checksPass fl → ∃ m, isValidDataset files = Except.ok (some m)))) := by
  refine ⟨?_, ?_, ?_⟩
  · unfold isValidDataset buildFrameList
    rw [exists_congr (fun e => exceptMap_error_iff validChecks _ e)]
    rw [buildFrames_error_iff]
    unfold raiseCond
    simp
  · intro hn
    unfold buildFrameList
    apply buildFrames_ok_total
    simp only [decide_eq_true_eq]
    exact fun hc => hn hc
  · intro fl hfl
    have hval : isValidDataset files = Except.ok (validChecks fl) := by
      unfold isValidDataset
      rw [hfl]
      rfl
    constructor
    · rw [hval]
      constructor
      · intro h
        have h2 : validChecks fl = none := by
          injection h
        exact (validChecks_none_iff fl).mp h2
      · intro h
        rw [(validChecks_none_iff fl).mpr h]
    · intro hnp
      cases hv : validChecks fl with
      | none => exact absurd ((validChecks_none_iff fl).mp hv) hnp
      | some m =>
        refine ⟨m, ?_⟩
        rw [hval, hv]

/-- C6 witness: a six-file MP dataset with three echo times builds its
frame list without raising, and the validator verdict is characterized by
the soft checks. -/
theorem c6_isValidDataset_policy_witness :
    buildFrameList dFiles6 = Except.ok fl6
    ∧ ((isValidDataset dFiles6 = Except.ok none ↔ checksPass fl6)
      ∧ (¬ checksPass fl6 → ∃ m, isValidDataset dFiles6 = Except.ok (some m))) := by
  have h : buildFrameList dFiles6 = Except.ok fl6 := by rfl
  exact ⟨h, (c6_isValidDataset_policy dFiles6).2.2 fl6 h⟩

end FWQPBO
